import Mathlib

/-!
Verification of the repository fetch/aggregate core of Gitbuddy.

The definitions below are shallow embeddings of the TypeScript source files:

* src/components/DirectoryStructure.tsx : estimateTokens, fetchAllFiles,
  fetchAllFilesContent, calculateRepoMetadata, generateDirectoryStructure and
  the fetchDirectoryStructure flow;
* src/components/ReadmeDisplay.tsx : the repoContent aggregation loop of
  generateReadme (the loop of generateDockerFiles in DockerfileDisplay.tsx is
  textually identical);
* supabase/functions/generate-readme/index.ts : the retry loop and the error
  mapping of the serve handler.

Network effects are modelled by passing the environment explicitly: the GitHub
contents API is a map from a directory path to either an error status or the
listed children, the per-file content endpoint is a map from a file path to a
response outcome, the browser atob builtin is a map from a base64 string to an
optional decoded string (none models a thrown decode exception), and the
Gemini endpoint is a map from the request index to an outcome.
-/

namespace Gitbuddy

/-- Kind of a node returned by the GitHub contents API (the field type of the
TypeScript interface GitHubContent, values "file" and "dir"). -/
inductive EntryType where
  | file
  | dir
  deriving DecidableEq, BEq, Repr

/-- One entry returned by the GitHub contents API, as in the TypeScript
interface GitHubContent of DirectoryStructure.tsx (the fields download_url,
size and sha are never read by the verified code and are omitted). -/
structure GitHubContent where
  name : String
  path : String
  type : EntryType
  deriving DecidableEq, BEq, Repr

/-- A repository tree node as served by the GitHub contents API: listing the
path of a directory node returns one GitHubContent entry per child, in this
order. -/
inductive RepoTree where
  | file (name path : String)
  | dir (name path : String) (children : List RepoTree)

/-- Failure model for directory listing requests: when failAt p = some s, the
GET request for the listing of path p returns the non-success HTTP status s,
and when failAt p = none it succeeds. noFail is the environment in which every
listing request succeeds. -/
def noFail : String → Option Nat := fun _ => none

/-- Embeds the loop of fetchAllFiles (DirectoryStructure.tsx lines 179-189)
run over the children ts of a directory whose listing succeeded: each listed
item is pushed first, and for a directory item the recursive call is
attempted, a throwing call being caught and skipped.  In the source the
recursive call throws exactly when the listing request for the path of that
directory returns a non-success status. -/
def fetchLoop (failAt : String → Option Nat) : List RepoTree → List GitHubContent
  | [] => []
  | .file n p :: ts => ⟨n, p, .file⟩ :: fetchLoop failAt ts
  | .dir n p cs :: ts =>
      ⟨n, p, .dir⟩ ::
        ((match failAt p with
          | some _ => []
          | none => fetchLoop failAt cs) ++ fetchLoop failAt ts)

/-- Embeds fetchAllFiles (DirectoryStructure.tsx lines 164-192) called on a
directory with request path p whose children are ts: a non-success status of
the listing request for p throws (lines 172-174), modelled by Except.error
carrying the HTTP status; otherwise the loop over the listed items runs. -/
def fetchAllFiles (failAt : String → Option Nat) (p : String)
    (ts : List RepoTree) : Except Nat (List GitHubContent) :=
  match failAt p with
  | some s => .error s
  | none => .ok (fetchLoop failAt ts)

/-- Pre-order flattening of a forest: the entry of each node is listed with a
directory entry first, then the entries of all its descendants, then the
entries of the later siblings. -/
def flattenForest : List RepoTree → List GitHubContent
  | [] => []
  | .file n p :: ts => ⟨n, p, .file⟩ :: flattenForest ts
  | .dir n p cs :: ts => ⟨n, p, .dir⟩ :: (flattenForest cs ++ flattenForest ts)

/-- Pre-order flattening of a single tree. -/
def flattenTree (t : RepoTree) : List GitHubContent := flattenForest [t]

/-- Total number of nodes (files plus directories) of a forest. -/
def countForest : List RepoTree → Nat
  | [] => 0
  | .file _ _ :: ts => 1 + countForest ts
  | .dir _ _ cs :: ts => 1 + countForest cs + countForest ts

/-- The forest with the subtree below every directory whose listing request
fails pruned away; the entry of the failing directory itself stays. -/
def pruneForest (failAt : String → Option Nat) : List RepoTree → List RepoTree
  | [] => []
  | .file n p :: ts => .file n p :: pruneForest failAt ts
  | .dir n p cs :: ts =>
      .dir n p (match failAt p with
        | some _ => []
        | none => pruneForest failAt cs) :: pruneForest failAt ts

theorem fetchLoop_eq_flatten_prune (failAt : String → Option Nat) :
    ∀ ts : List RepoTree, fetchLoop failAt ts = flattenForest (pruneForest failAt ts)
  | [] => by simp [fetchLoop, pruneForest, flattenForest]
  | .file n p :: ts => by
      simp [fetchLoop, pruneForest, flattenForest, fetchLoop_eq_flatten_prune failAt ts]
  | .dir n p cs :: ts => by
      cases h : failAt p with
      | some s =>
          simp [fetchLoop, pruneForest, flattenForest, h,
            fetchLoop_eq_flatten_prune failAt ts]
      | none =>
          simp [fetchLoop, pruneForest, flattenForest, h,
            fetchLoop_eq_flatten_prune failAt cs, fetchLoop_eq_flatten_prune failAt ts]

theorem pruneForest_noFail : ∀ ts : List RepoTree, pruneForest noFail ts = ts
  | [] => by simp [pruneForest]
  | .file n p :: ts => by simp [pruneForest, pruneForest_noFail ts]
  | .dir n p cs :: ts => by
      simp [pruneForest, noFail, pruneForest_noFail cs, pruneForest_noFail ts]

theorem length_flattenForest :
    ∀ ts : List RepoTree, (flattenForest ts).length = countForest ts
  | [] => by simp [flattenForest, countForest]
  | .file n p :: ts => by
      simp [flattenForest, countForest, length_flattenForest ts]; omega
  | .dir n p cs :: ts => by
      simp [flattenForest, countForest, length_flattenForest cs,
        length_flattenForest ts]; omega

theorem flattenForest_cons (t : RepoTree) (ts : List RepoTree) :
    flattenForest (t :: ts) = flattenTree t ++ flattenForest ts := by
  cases t <;> simp [flattenForest, flattenTree]

/-- C1: on a repository tree with no failing listing request, fetchAllFiles
run at the root returns the full pre-order flattening of the tree: exactly
countForest ts entries (one per node), each directory entry placed immediately
before the block of its descendants, sibling blocks in listing order. -/
theorem fetchAllFiles_preorder_complete (ts : List RepoTree) :
    fetchAllFiles noFail "" ts = .ok (flattenForest ts) ∧
    (flattenForest ts).length = countForest ts ∧
    (∀ n p cs, flattenTree (.dir n p cs) = ⟨n, p, .dir⟩ :: flattenForest cs) ∧
    (∀ t ts2, flattenForest (t :: ts2) = flattenTree t ++ flattenForest ts2) := by
  refine ⟨?_, length_flattenForest ts, ?_, fun t ts2 => flattenForest_cons t ts2⟩
  · show Except.ok (fetchLoop noFail ts) = Except.ok (flattenForest ts)
    rw [fetchLoop_eq_flatten_prune, pruneForest_noFail]
  · intro n p cs
    simp [flattenTree, flattenForest]

/-- C2: if the listing request at the root path fails with status s, the whole
fetchAllFiles call fails with that status and no result list is built; if the
root listing succeeds, the call does not throw whatever subdirectory listing
requests fail, and it returns exactly the entries reachable without the failed
subtrees (each failing directory keeps its own entry, only its descendants are
omitted). -/
theorem fetchAllFiles_error_policy (failAt : String → Option Nat)
    (ts : List RepoTree) :
    (∀ s, failAt "" = some s → fetchAllFiles failAt "" ts = .error s) ∧
    (failAt "" = none →
      fetchAllFiles failAt "" ts = .ok (flattenForest (pruneForest failAt ts))) := by
  constructor
  · intro s hs
    simp [fetchAllFiles, hs]
  · intro h
    simp [fetchAllFiles, h, fetchLoop_eq_flatten_prune]

theorem fetchAllFiles_error_policy_witness :
    ((fun p => if p = "" then some 404 else none) "" = some 404) ∧
    fetchAllFiles (fun p => if p = "" then some 404 else none) ""
      [.file "a" "a"] = .error 404 :=
  ⟨by decide, (fetchAllFiles_error_policy _ _).1 404 (by decide)⟩

/-- Delimiter line written around every FILE header by the aggregators: 48
equality signs followed by a newline. -/
def delim : String := String.mk (List.replicate 48 '=') ++ "\n"

/-- Outcome of one per-file content request, as observed by the TypeScript
code: the fetch call threw (netError), the response was non-success
(httpError with the HTTP status), or it was a success with the json content
field absent (okNoContent) or present (okContent with the base64 payload). -/
inductive FileResponse where
  | netError
  | httpError (status : Nat)
  | okNoContent
  | okContent (data : String)
  deriving DecidableEq, Repr

/-- Embeds the replace call applied to the base64 payload before decoding:
every newline character is removed. -/
def stripNewlines (s : String) : String :=
  String.mk (s.data.filter (fun c => c != '\n'))

/-- Embeds one iteration of the aggregation loop of fetchAllFilesContent
(DirectoryStructure.tsx lines 89-134): the text appended to contentText for
one file with path p whose content request had outcome resp.  The browser
atob builtin is modelled by atobFn, none standing for a thrown decode
exception. -/
def fileSection (atobFn : String → Option String) (p : String)
    (resp : FileResponse) : String :=
  match resp with
  | .okContent data =>
      let content :=
        match atobFn (stripNewlines data) with
        | some c => c
        | none => "[Binary file or encoding error]"
      delim ++ "FILE: " ++ p ++ "\n" ++ delim ++ content ++ "\n\n"
  | .okNoContent =>
      delim ++ "FILE: " ++ p ++ "\n" ++ delim ++
        "[Empty file or could not decode content]" ++ "\n\n"
  | .httpError status =>
      delim ++ "FILE: " ++ p ++ "\n" ++ delim ++
        "[Error: Could not fetch file content - " ++ toString status ++ "]\n\n"
  | .netError =>
      delim ++ "FILE: " ++ p ++ "\n" ++ delim ++
        "[Error: Could not fetch file content]\n\n"

/-- Embeds the aggregation performed by fetchAllFilesContent
(DirectoryStructure.tsx lines 84-136): the traversal result is filtered to
file entries and one section per file is appended after the repository
header, respOf giving the outcome of the content request for each path. -/
def fetchAllFilesContent (atobFn : String → Option String)
    (respOf : String → FileResponse) (repoFullName : String)
    (allFiles : List GitHubContent) : String :=
  let fileItems := allFiles.filter (fun f => f.type == EntryType.file)
  "Repository: " ++ repoFullName ++ "\n\n" ++
    String.join (fileItems.map (fun f => fileSection atobFn f.path (respOf f.path)))

/-- Embeds one iteration of the aggregation loop of generateReadme
(ReadmeDisplay.tsx lines 36-67).  Unlike fetchAllFilesContent, the non-success
response case falls through with nothing appended (the if at line 45 has no
else branch) and a thrown fetch is caught at line 64 with nothing appended. -/
def readmeSection (atobFn : String → Option String) (p : String)
    (resp : FileResponse) : String :=
  match resp with
  | .okContent data =>
      let content :=
        match atobFn (stripNewlines data) with
        | some c => c
        | none => "[Binary file or encoding error]"
      delim ++ "FILE: " ++ p ++ "\n" ++ delim ++ content ++ "\n\n"
  | .okNoContent =>
      delim ++ "FILE: " ++ p ++ "\n" ++ delim ++
        "[Empty file or could not decode content]" ++ "\n\n"
  | .httpError _ => ""
  | .netError => ""

/-- Embeds the repoContent aggregation of generateReadme (ReadmeDisplay.tsx
lines 31-67); the loop of generateDockerFiles (DockerfileDisplay.tsx lines
50-86) is textually identical and is the same function. -/
def generateReadmeRepoContent (atobFn : String → Option String)
    (respOf : String → FileResponse) (repoFullName : String)
    (allFiles : List GitHubContent) : String :=
  let fileItems := allFiles.filter (fun f => f.type == EntryType.file)
  "Repository: " ++ repoFullName ++ "\n\n" ++
    String.join (fileItems.map (fun f => readmeSection atobFn f.path (respOf f.path)))

/-- Tests whether the list pat is an initial segment of the list l. -/
def startsWithList (pat l : List Char) : Bool :=
  match pat, l with
  | [], _ => true
  | _, [] => false
  | p :: ps, c :: cs => p == c && startsWithList ps cs

/-- Number of positions of l at which the pattern pat occurs. -/
def countSub (pat : List Char) : List Char → Nat
  | [] => if startsWithList pat [] then 1 else 0
  | b :: bs => (if startsWithList pat (b :: bs) then 1 else 0) + countSub pat bs

/-- C3 counterexample: in the README generation flow, a file entry whose
content fetch returns a non-success status (here 404) produces no section at
all: the aggregated document is just the repository header and contains no
FILE line for the entry, refuting the claim that every aggregation path keeps
one headed section per file entry. -/
theorem readme_flow_omits_failed_section :
    generateReadmeRepoContent (fun s => some s) (fun _ => .httpError 404) "o/r"
        [⟨"a.txt", "a.txt", .file⟩] = "Repository: o/r\n\n" ∧
    countSub ("FILE: a.txt").data
        (generateReadmeRepoContent (fun s => some s) (fun _ => .httpError 404) "o/r"
          [⟨"a.txt", "a.txt", .file⟩]).data = 0 := by
  constructor
  · rfl
  · decide

/-- C3 amended: in the content-ingestion view (fetchAllFilesContent) the
aggregated document is the repository header followed by exactly one section
per file entry of the filtered traversal result, in order, and every section,
placeholder sections for failures included, begins with the delimited FILE
header for its path, so a per-file failure never omits the header and never
aborts the remaining files; in the README and Dockerfile generation flows a
successful response likewise yields a headed section and the aggregation never
aborts, but a non-success response or a thrown fetch contributes nothing, the
section header included. -/
theorem aggregation_section_policy (atobFn : String → Option String)
    (respOf : String → FileResponse) (repoFullName : String)
    (allFiles : List GitHubContent) :
    (fetchAllFilesContent atobFn respOf repoFullName allFiles =
      "Repository: " ++ repoFullName ++ "\n\n" ++
        String.join ((allFiles.filter (fun f => f.type == EntryType.file)).map
          (fun f => fileSection atobFn f.path (respOf f.path)))) ∧
    (∀ p resp, ∃ rest, fileSection atobFn p resp =
      (delim ++ "FILE: " ++ p ++ "\n" ++ delim) ++ rest) ∧
    (generateReadmeRepoContent atobFn respOf repoFullName allFiles =
      "Repository: " ++ repoFullName ++ "\n\n" ++
        String.join ((allFiles.filter (fun f => f.type == EntryType.file)).map
          (fun f => readmeSection atobFn f.path (respOf f.path)))) ∧
    (∀ p resp, readmeSection atobFn p resp = "" ∨
      ∃ rest, readmeSection atobFn p resp =
        (delim ++ "FILE: " ++ p ++ "\n" ++ delim) ++ rest) ∧
    (∀ p status, readmeSection atobFn p (.httpError status) = "" ∧
      readmeSection atobFn p .netError = "") ∧
    (∀ p data, ∃ rest, readmeSection atobFn p (.okContent data) =
      (delim ++ "FILE: " ++ p ++ "\n" ++ delim) ++ rest) ∧
    (∀ p, ∃ rest, readmeSection atobFn p .okNoContent =
      (delim ++ "FILE: " ++ p ++ "\n" ++ delim) ++ rest) := by
  refine ⟨rfl, ?_, rfl, ?_, fun p status => ⟨rfl, rfl⟩, ?_, ?_⟩
  · intro p resp
    cases resp with
    | netError =>
        exact ⟨"[Error: Could not fetch file content]\n\n",
          by simp [fileSection, String.append_assoc]⟩
    | httpError status =>
        exact ⟨"[Error: Could not fetch file content - " ++ (toString status ++ "]\n\n"),
          by simp [fileSection, String.append_assoc]⟩
    | okNoContent =>
        exact ⟨"[Empty file or could not decode content]" ++ "\n\n",
          by simp [fileSection, String.append_assoc]⟩
    | okContent data =>
        cases h : atobFn (stripNewlines data) with
        | some c => exact ⟨c ++ "\n\n", by simp [fileSection, h, String.append_assoc]⟩
        | none =>
            have hm : "[Binary file or encoding error]" ++ "\n\n" =
                "[Binary file or encoding error]\n\n" := rfl
            exact ⟨"[Binary file or encoding error]" ++ "\n\n",
              by simp [fileSection, h, String.append_assoc, hm]⟩
  · intro p resp
    cases resp with
    | netError => exact Or.inl rfl
    | httpError status => exact Or.inl rfl
    | okNoContent =>
        exact Or.inr ⟨"[Empty file or could not decode content]" ++ "\n\n",
          by simp [readmeSection, String.append_assoc]⟩
    | okContent data =>
        cases h : atobFn (stripNewlines data) with
        | some c =>
            exact Or.inr ⟨c ++ "\n\n", by simp [readmeSection, h, String.append_assoc]⟩
        | none =>
            have hm : "[Binary file or encoding error]" ++ "\n\n" =
                "[Binary file or encoding error]\n\n" := rfl
            exact Or.inr ⟨"[Binary file or encoding error]" ++ "\n\n",
              by simp [readmeSection, h, String.append_assoc, hm]⟩
  · intro p data
    cases h : atobFn (stripNewlines data) with
    | some c => exact ⟨c ++ "\n\n", by simp [readmeSection, h, String.append_assoc]⟩
    | none =>
        have hm : "[Binary file or encoding error]" ++ "\n\n" =
            "[Binary file or encoding error]\n\n" := rfl
        exact ⟨"[Binary file or encoding error]" ++ "\n\n",
          by simp [readmeSection, h, String.append_assoc, hm]⟩
  · intro p
    exact ⟨"[Empty file or could not decode content]" ++ "\n\n",
      by simp [readmeSection, String.append_assoc]⟩

/-- C4: the section content chosen by fetchAllFilesContent for each failure
mode, exactly as the source selects it: a successful response with a payload
has its newlines stripped and is then decoded, a decode exception yields the
binary placeholder, an absent payload yields the empty placeholder, a
non-success response yields the placeholder with the HTTP status interpolated,
and a thrown fetch yields the placeholder without a status. -/
theorem fileSection_content_by_failure_mode (atobFn : String → Option String)
    (p : String) :
    (∀ data c, atobFn (stripNewlines data) = some c →
      fileSection atobFn p (.okContent data) =
        delim ++ "FILE: " ++ p ++ "\n" ++ delim ++ c ++ "\n\n") ∧
    (∀ data, atobFn (stripNewlines data) = none →
      fileSection atobFn p (.okContent data) =
        delim ++ "FILE: " ++ p ++ "\n" ++ delim ++
          "[Binary file or encoding error]" ++ "\n\n") ∧
    (fileSection atobFn p .okNoContent =
      delim ++ "FILE: " ++ p ++ "\n" ++ delim ++
        "[Empty file or could not decode content]" ++ "\n\n") ∧
    (∀ status, fileSection atobFn p (.httpError status) =
      delim ++ "FILE: " ++ p ++ "\n" ++ delim ++
        "[Error: Could not fetch file content - " ++ toString status ++ "]\n\n") ∧
    (fileSection atobFn p .netError =
      delim ++ "FILE: " ++ p ++ "\n" ++ delim ++
        "[Error: Could not fetch file content]\n\n") := by
  refine ⟨?_, ?_, rfl, fun status => rfl, rfl⟩
  · intro data c h
    simp [fileSection, h]
  · intro data h
    simp [fileSection, h]

theorem fileSection_content_witness :
    ((fun s : String => some s) (stripNewlines "hi") = some "hi") ∧
    fileSection (fun s : String => some s) "p.txt" (.okContent "hi") =
      delim ++ "FILE: " ++ "p.txt" ++ "\n" ++ delim ++ "hi" ++ "\n\n" :=
  ⟨by decide,
    (fileSection_content_by_failure_mode (fun s : String => some s) "p.txt").1
      "hi" "hi" (by decide)⟩

theorem ceil_cast_div_eq (a b : ℕ) (hb : 0 < b) :
    ⌈(a : ℚ) / (b : ℚ)⌉ = (((a + b - 1) / b : ℕ) : ℤ) := by
  have hdvd : b * ((a + b - 1) / b) + (a + b - 1) % b = a + b - 1 := Nat.div_add_mod _ _
  have hmod : (a + b - 1) % b < b := Nat.mod_lt _ hb
  set k : ℕ := (a + b - 1) / b with hk
  have h1 : a ≤ b * k := by generalize hq : b * k = q at hdvd ⊢; omega
  have h2 : b * k < a + b := by generalize hq : b * k = q at hdvd ⊢; omega
  have hb0 : (0 : ℚ) < (b : ℚ) := by exact_mod_cast hb
  have h1q : (a : ℚ) ≤ (b : ℚ) * (k : ℚ) := by exact_mod_cast h1
  have h2q : (b : ℚ) * (k : ℚ) < (a : ℚ) + (b : ℚ) := by exact_mod_cast h2
  rw [Int.ceil_eq_iff]
  have hcast : (((k : ℤ) : ℚ)) = (k : ℚ) := by push_cast; ring
  constructor
  · rw [hcast, lt_div_iff₀ hb0]
    nlinarith
  · rw [hcast, div_le_iff₀ hb0]
    nlinarith

/-- Whitespace test modelling the character class of the split regex of
estimateTokens. -/
def isWs (c : Char) : Bool := c.isWhitespace

/-- Embeds the JavaScript split call with the whitespace-run regex applied in
estimateTokens: the character list splits at every maximal run of whitespace,
an empty segment appearing before a leading run and after a trailing run, and
the empty list giving one empty segment, so that the number of segments equals
the length of the array the JavaScript split returns. -/
def splitWs : List Char → List (List Char)
  | [] => [[]]
  | c :: cs =>
      if isWs c then
        match cs with
        | [] => [[], []]
        | d :: _ => if isWs d then splitWs cs else [] :: splitWs cs
      else
        match splitWs cs with
        | [] => [[c]]
        | seg :: rest => (c :: seg) :: rest

/-- Length of the array returned by the JavaScript whitespace split (the
variable words of estimateTokens). -/
def wordCountJS (s : String) : Nat := (splitWs s.data).length

/-- Embeds estimateTokens (DirectoryStructure.tsx lines 28-39): words is the
length of the whitespace split, characters the length of the text,
Math.ceil(words * 1.3) is embedded as the exact integer ceiling of
13 * words / 10, Math.ceil(characters / 4) as the exact ceiling of
characters / 4 (for the integer arguments arising here the float expressions
of the source round to exactly these values), and the larger of the two
estimates is returned. -/
def estimateTokens (text : String) : Nat :=
  let words := wordCountJS text
  let characters := text.data.length
  let wordBasedTokens := (13 * words + 9) / 10
  let charBasedTokens := (characters + 3) / 4
  max wordBasedTokens charBasedTokens

/-- C5: for every input text, estimateTokens equals the larger of the ceiling
of wordCount * 1.3 and the ceiling of characterCount / 4, where wordCount is
the length of the whitespace-run split; the value is a non-negative integer,
and the function is a total pure Lean function, hence deterministic and
without failure modes. -/
theorem estimateTokens_spec (text : String) :
    ((estimateTokens text : ℤ) =
      max ⌈(wordCountJS text : ℚ) * (13 / 10 : ℚ)⌉ ⌈(text.data.length : ℚ) / (4 : ℚ)⌉) ∧
    0 ≤ (estimateTokens text : ℤ) := by
  constructor
  · have h1 : ⌈(wordCountJS text : ℚ) * (13 / 10 : ℚ)⌉ =
        (((13 * wordCountJS text + 9) / 10 : ℕ) : ℤ) := by
      have he : (wordCountJS text : ℚ) * (13 / 10 : ℚ) =
          ((13 * wordCountJS text : ℕ) : ℚ) / ((10 : ℕ) : ℚ) := by push_cast; ring
      rw [he, ceil_cast_div_eq _ _ (by norm_num)]
      congr 2
    have h2 : ⌈(text.data.length : ℚ) / (4 : ℚ)⌉ =
        (((text.data.length + 3) / 4 : ℕ) : ℤ) := by
      have he : (text.data.length : ℚ) / (4 : ℚ) =
          ((text.data.length : ℕ) : ℚ) / ((4 : ℕ) : ℚ) := by push_cast; ring
      rw [he, ceil_cast_div_eq _ _ (by norm_num)]
      congr 2
    rw [h1, h2]
    simp only [estimateTokens]
    push_cast
    rfl
  · positivity

theorem one_le_splitWs_length : ∀ l : List Char, 1 ≤ (splitWs l).length
  | [] => by simp [splitWs]
  | c :: cs => by
      cases h : isWs c with
      | true =>
          cases cs with
          | nil => simp [splitWs, h]
          | cons d ds =>
              cases hd : isWs d with
              | true => simpa [splitWs, h, hd] using one_le_splitWs_length (d :: ds)
              | false => simp [splitWs, h, hd]
      | false =>
          cases hs : splitWs cs with
          | nil =>
              have h1 := one_le_splitWs_length cs
              rw [hs] at h1
              simp at h1
          | cons seg rest => simp [splitWs, h, hs]

theorem two_le_splitWs_length_ws :
    ∀ (v : List Char) (c : Char), isWs c = true → 2 ≤ (splitWs (c :: v)).length
  | [], c, h => by simp [splitWs, h]
  | d :: ds, c, h => by
      cases hd : isWs d with
      | true => simpa [splitWs, h, hd] using two_le_splitWs_length_ws ds d hd
      | false =>
          have h1 := one_le_splitWs_length (d :: ds)
          simpa [splitWs, h, hd] using Nat.succ_le_succ h1

theorem splitWs_length_le_append (u : List Char) :
    ∀ l : List Char, (splitWs l).length ≤ (splitWs (l ++ u)).length
  | [] => by simpa [splitWs] using one_le_splitWs_length u
  | c :: cs => by
      cases h : isWs c with
      | true =>
          cases cs with
          | nil => simpa [splitWs, h] using two_le_splitWs_length_ws u c h
          | cons d ds =>
              cases hd : isWs d with
              | true => simpa [splitWs, h, hd] using splitWs_length_le_append u (d :: ds)
              | false => simpa [splitWs, h, hd] using splitWs_length_le_append u (d :: ds)
      | false =>
          cases hs : splitWs cs with
          | nil =>
              have h1 := one_le_splitWs_length cs
              rw [hs] at h1
              simp at h1
          | cons seg rest =>
              cases hs2 : splitWs (cs ++ u) with
              | nil =>
                  have h1 := one_le_splitWs_length (cs ++ u)
                  rw [hs2] at h1
                  simp at h1
              | cons seg2 rest2 =>
                  have ih := splitWs_length_le_append u cs
                  rw [hs, hs2] at ih
                  have hL : splitWs (c :: cs) = (c :: seg) :: rest := by
                    simp [splitWs, h, hs]
                  have hR : splitWs ((c :: cs) ++ u) = (c :: seg2) :: rest2 := by
                    simp [splitWs, h, hs2]
                  rw [hL, hR]
                  simpa using ih

theorem estimateTokens_le_append (t s : String) :
    estimateTokens t ≤ estimateTokens (t ++ s) := by
  have hdata : (t ++ s).data = t.data ++ s.data := rfl
  have hw : (splitWs t.data).length ≤ (splitWs (t ++ s).data).length := by
    rw [hdata]
    exact splitWs_length_le_append s.data t.data
  have hc : t.data.length ≤ (t ++ s).data.length := by
    rw [hdata]
    simp
  simp only [estimateTokens, wordCountJS]
  exact max_le_max (Nat.div_le_div_right (by omega)) (Nat.div_le_div_right (by omega))

/-- Concatenation of n copies of s, the repetition used to state C6. -/
def repeatStr (s : String) : Nat → String
  | 0 => ""
  | n + 1 => repeatStr s n ++ s

/-- C6: for a non-empty string s and m ≤ n, the token estimate of s repeated
m times is at most the estimate of s repeated n times: appending text never
decreases the character count nor the whitespace-split segment count, so
estimateTokens is monotone under repeated concatenation. -/
theorem estimateTokens_repeat_mono (s : String) (m n : Nat) (hs : s ≠ "")
    (hmn : m ≤ n) :
    estimateTokens (repeatStr s m) ≤ estimateTokens (repeatStr s n) := by
  obtain ⟨d, rfl⟩ := Nat.exists_eq_add_of_le hmn
  clear hmn hs
  induction d with
  | zero => exact le_rfl
  | succ d ih =>
      have hstep : repeatStr s (m + (d + 1)) = repeatStr s (m + d) ++ s := rfl
      rw [hstep]
      exact le_trans ih (estimateTokens_le_append _ s)

theorem estimateTokens_repeat_mono_witness :
    (("ab" : String) ≠ "" ∧ 1 ≤ 2) ∧
    estimateTokens (repeatStr "ab" 1) ≤ estimateTokens (repeatStr "ab" 2) :=
  ⟨⟨by decide, by decide⟩, estimateTokens_repeat_mono "ab" 1 2 (by decide) (by decide)⟩

theorem round_cast_div_eq (a b : ℕ) (hb : 0 < b) :
    round ((a : ℚ) / (b : ℚ)) = (((2 * a + b) / (2 * b) : ℕ) : ℤ) := by
  rw [round_eq]
  have hbq : ((b : ℚ)) ≠ 0 := by
    exact_mod_cast Nat.pos_iff_ne_zero.mp hb
  have he : (a : ℚ) / (b : ℚ) + 1 / 2 =
      ((2 * (a : ℤ) + (b : ℤ) : ℤ) : ℚ) / ((2 * b : ℕ) : ℚ) := by
    push_cast
    field_simp
    ring
  rw [he, Rat.floor_intCast_div_natCast, Int.ofNat_div]
  push_cast
  rfl

/-- Splits a character list at every occurrence of the separator character,
modelling the JavaScript split call with a one-character separator: the
original list of segments between separators, with empty segments for leading,
trailing or adjacent separators. -/
def splitOnChar (sep : Char) : List Char → List (List Char)
  | [] => [[]]
  | c :: cs =>
      if c = sep then [] :: splitOnChar sep cs
      else
        match splitOnChar sep cs with
        | [] => [[c]]
        | seg :: rest => (c :: seg) :: rest

/-- The second segment of the slash-split repository identifier, as the
source computes the short repository name (split followed by index 1); an
absent segment is modelled as the empty string. -/
def shortName (repoFullName : String) : String :=
  String.mk ((splitOnChar '/' repoFullName.data).getD 1 [])

/-- Metadata record returned by calculateRepoMetadata (the TypeScript
interface RepoMetadata). -/
structure RepoMetadata where
  name : String
  filesAnalyzed : Nat
  estimatedTokens : Nat
  deriving DecidableEq, Repr

/-- Contribution of one sampled file to totalTokens in calculateRepoMetadata
(DirectoryStructure.tsx lines 202-224): only a success response whose payload
is present and decodes contributes the token estimate of the decoded content;
every failure mode contributes nothing and is skipped. -/
def sampleTokens (atobFn : String → Option String) (resp : FileResponse) : Nat :=
  match resp with
  | .okContent data =>
      match atobFn (stripNewlines data) with
      | some content => estimateTokens content
      | none => 0
  | _ => 0

/-- Rounding of the non-negative rational a / b to the nearest integer with
halves rounded up, as Math.round computes it; meaningful for b > 0. -/
def natRound (a b : Nat) : Nat := (2 * a + b) / (2 * b)

/-- Embeds calculateRepoMetadata (DirectoryStructure.tsx lines 194-235): the
traversal result is filtered to files, the first min(10, fileCount) of them
are sampled, their token estimates are summed, and the estimate is the sample
average scaled to the file count and rounded (the float average and
Math.round of the source are embedded as exact rational rounding); with an
empty sample the average, and hence the estimate, is 0.  The name is the
second segment of the repository identifier. -/
def calculateRepoMetadata (atobFn : String → Option String)
    (respOf : String → FileResponse) (repoFullName : String)
    (files : List GitHubContent) : RepoMetadata :=
  let fileItems := files.filter (fun f => f.type == EntryType.file)
  let sampleSize := min 10 fileItems.length
  let sampleFiles := fileItems.take sampleSize
  let totalTokens := (sampleFiles.map (fun f => sampleTokens atobFn (respOf f.path))).sum
  let estimatedTotalTokens :=
    if sampleFiles.length = 0 then 0
    else natRound (totalTokens * fileItems.length) sampleFiles.length
  { name := shortName repoFullName
    filesAnalyzed := fileItems.length
    estimatedTokens := estimatedTotalTokens }

set_option maxRecDepth 100000 in
/-- C7: the repository estimate samples the first min(10, fileCount) file
entries of the input, sums their token estimates, divides by the sample count
and scales by the total file count, rounding to the nearest integer; an empty
sample gives 0.  On 23 files whose first 10 all estimate to 40 tokens the
estimate is round(40 * 23) = 920. -/
theorem calculateRepoMetadata_estimate (atobFn : String → Option String)
    (respOf : String → FileResponse) (repo : String) (files : List GitHubContent)
    (fileItems sampleFiles : List GitHubContent) (totalTokens : Nat)
    (hfi : fileItems = files.filter (fun f => f.type == EntryType.file))
    (hsf : sampleFiles = fileItems.take (min 10 fileItems.length))
    (htt : totalTokens =
      (sampleFiles.map (fun f => sampleTokens atobFn (respOf f.path))).sum) :
    (sampleFiles.length ≠ 0 →
      ((calculateRepoMetadata atobFn respOf repo files).estimatedTokens : ℤ) =
        round ((totalTokens : ℚ) / (sampleFiles.length : ℚ) * (fileItems.length : ℚ))) ∧
    (sampleFiles.length = 0 →
      (calculateRepoMetadata atobFn respOf repo files).estimatedTokens = 0) ∧
    (calculateRepoMetadata (fun s => some s)
        (fun _ => .okContent (String.mk (List.replicate 160 'a'))) "o/r"
        (List.replicate 23 ⟨"f", "f", EntryType.file⟩)).estimatedTokens = 920 := by
  subst hfi
  subst hsf
  subst htt
  have hE : (calculateRepoMetadata atobFn respOf repo files).estimatedTokens =
      (if ((files.filter (fun f => f.type == EntryType.file)).take
            (min 10 (files.filter (fun f => f.type == EntryType.file)).length)).length = 0
        then 0
        else natRound
          ((((files.filter (fun f => f.type == EntryType.file)).take
              (min 10 (files.filter (fun f => f.type == EntryType.file)).length)).map
                (fun f => sampleTokens atobFn (respOf f.path))).sum *
            (files.filter (fun f => f.type == EntryType.file)).length)
          ((files.filter (fun f => f.type == EntryType.file)).take
            (min 10 (files.filter (fun f => f.type == EntryType.file)).length)).length) :=
    rfl
  refine ⟨?_, ?_, by decide⟩
  · intro h
    rw [hE, if_neg h]
    set F := files.filter (fun f => f.type == EntryType.file) with hF
    set S := F.take (min 10 F.length) with hS
    set T := (S.map (fun f => sampleTokens atobFn (respOf f.path))).sum with hT
    have hpos : 0 < S.length := Nat.pos_of_ne_zero h
    have hq : (T : ℚ) / (S.length : ℚ) * (F.length : ℚ) =
        ((T * F.length : ℕ) : ℚ) / ((S.length : ℕ) : ℚ) := by
      push_cast
      ring
    rw [hq, round_cast_div_eq _ _ hpos]
    rfl
  · intro h
    rw [hE, if_pos h]

theorem calculateRepoMetadata_estimate_witness :
    (([(⟨"f", "x", EntryType.file⟩ : GitHubContent)]).length ≠ 0) ∧
    ((calculateRepoMetadata (fun s => some s) (fun _ => .okContent "abcd") "o/r"
        [⟨"f", "x", EntryType.file⟩]).estimatedTokens : ℤ) =
      round (((2 : ℕ) : ℚ) / (((1 : ℕ)) : ℚ) * (((1 : ℕ)) : ℚ)) :=
  ⟨by decide,
    (calculateRepoMetadata_estimate (fun s => some s) (fun _ => .okContent "abcd")
        "o/r" [⟨"f", "x", EntryType.file⟩] [⟨"f", "x", EntryType.file⟩]
        [⟨"f", "x", EntryType.file⟩] 2 rfl rfl rfl).1 (by decide)⟩

/-- Lexicographic order on character lists, the model of the localeCompare
based path comparison (ordinal comparison on the code points). -/
def listCharLE : List Char → List Char → Bool
  | [], _ => true
  | x :: xs, v =>
      match v with
      | [] => false
      | y :: ys =>
          if x < y then true
          else if y < x then false
          else listCharLE xs ys

theorem listCharLE_trans : ∀ a b c : List Char,
    listCharLE a b = true → listCharLE b c = true → listCharLE a c = true
  | [], _, _, _, _ => rfl
  | _ :: _, [], _, hab, _ => by simp [listCharLE] at hab
  | _ :: _, _ :: _, [], _, hbc => by simp [listCharLE] at hbc
  | x :: as, y :: bs, z :: cs, hab, hbc => by
      rcases lt_trichotomy x y with hxy | rfl | hxy
      · rcases lt_trichotomy y z with hyz | rfl | hyz
        · simp [listCharLE, lt_trans hxy hyz]
        · simp [listCharLE, hxy]
        · simp [listCharLE, hyz, lt_asymm hyz] at hbc
      · rcases lt_trichotomy x z with hxz | rfl | hxz
        · simp [listCharLE, hxz]
        · simp [listCharLE, lt_irrefl] at hab hbc ⊢
          exact listCharLE_trans as bs cs hab hbc
        · simp [listCharLE, hxz, lt_asymm hxz] at hbc
      · simp [listCharLE, hxy, lt_asymm hxy] at hab

theorem listCharLE_total : ∀ a b : List Char,
    (listCharLE a b || listCharLE b a) = true
  | [], _ => by simp [listCharLE]
  | _ :: _, [] => by simp [listCharLE]
  | x :: as, y :: bs => by
      rcases lt_trichotomy x y with h | rfl | h
      · simp [listCharLE, h]
      · have := listCharLE_total as bs
        simp [listCharLE, lt_irrefl]
        simpa using this
      · simp [listCharLE, h, lt_asymm h]

/-- Comparator passed to the sort call of generateDirectoryStructure
(DirectoryStructure.tsx lines 238-244): a directory sorts before a file when
the kinds differ, and otherwise the paths are compared (localeCompare is
modelled as the ordinal lexicographic order on the character lists). -/
def entryLE (a b : GitHubContent) : Bool :=
  if a.type ≠ b.type then a.type == EntryType.dir
  else listCharLE a.path.data b.path.data

theorem entryLE_trans (a b c : GitHubContent) (hab : entryLE a b = true)
    (hbc : entryLE b c = true) : entryLE a c = true := by
  cases ha : a.type <;> cases hb : b.type <;> cases hc : c.type <;>
    simp [entryLE, ha, hb, hc] at hab hbc ⊢ <;>
    first
      | rfl
      | exact listCharLE_trans _ _ _ hab hbc
      | exact absurd hab (by decide)
      | exact absurd hbc (by decide)

theorem entryLE_total (a b : GitHubContent) :
    (entryLE a b || entryLE b a) = true := by
  cases ha : a.type <;> cases hb : b.type <;> simp [entryLE, ha, hb] <;>
    first
      | decide
      | simpa using listCharLE_total a.path.data b.path.data

/-- Number of slash characters of a path; the source computes the depth as
the slash-split length minus one, which equals this count. -/
def depthOf (p : String) : Nat := p.data.countP (fun c => c == '/')

/-- One line of the rendered structure (DirectoryStructure.tsx lines
248-253): four spaces of indentation per unit of depth, the end-cap glyph on
the last entry of the whole sorted list and the branch glyph on every other
entry, then the entry name with a trailing slash for directories. -/
def lineFor (isLastEntry : Bool) (f : GitHubContent) : String :=
  String.join (List.replicate (depthOf f.path) "    ") ++
    (if isLastEntry then "└── " else "├── ") ++
    f.name ++ (if f.type == EntryType.dir then "/" else "") ++ "\n"

/-- The lines of the sorted entry list: every entry except the globally last
uses the branch glyph, the last uses the end-cap glyph. -/
def renderLines : List GitHubContent → String
  | [] => ""
  | [f] => lineFor true f
  | f :: g :: fs => lineFor false f ++ renderLines (g :: fs)

/-- Lines of a list of entries rendered with the branch glyph only. -/
def branchLines : List GitHubContent → String
  | [] => ""
  | f :: fs => lineFor false f ++ branchLines fs

/-- Embeds generateDirectoryStructure (DirectoryStructure.tsx lines 237-257):
the entries are sorted with the comparator entryLE (Array.sort with a
comparator is modelled by the stable merge sort) and rendered below the
header line and the root line carrying the short repository name. -/
def generateDirectoryStructure (repoFullName : String)
    (files : List GitHubContent) : String :=
  let sortedFiles := files.mergeSort entryLE
  "Directory structure:\n└── " ++ shortName repoFullName ++ "/\n" ++
    renderLines sortedFiles

theorem renderLines_append_last (f : GitHubContent) :
    ∀ fs : List GitHubContent,
      renderLines (fs ++ [f]) = branchLines fs ++ lineFor true f
  | [] => by simp [renderLines, branchLines]
  | [g] => by simp [renderLines, branchLines, String.append_assoc]
  | g :: h :: fs => by
      have ih := renderLines_append_last f (h :: fs)
      calc renderLines ((g :: h :: fs) ++ [f])
          = lineFor false g ++ renderLines ((h :: fs) ++ [f]) := by
            simp [renderLines]
        _ = lineFor false g ++ (branchLines (h :: fs) ++ lineFor true f) := by rw [ih]
        _ = branchLines (g :: h :: fs) ++ lineFor true f := by
            simp [branchLines, String.append_assoc]

unseal List.merge List.mergeSort in
/-- C8: the comparator orders a directory before a file whenever the kinds
differ and otherwise compares the paths lexicographically; the sorted list is
a permutation of the input sorted by that comparator; the output is the
header line, a root line with the short repository name, and one line per
sorted entry; appending rendering uses the branch glyph on every line before
the last and the end-cap glyph only on the globally last line; on the
three-entry example the directory a renders before the file a/b.txt, which
renders before the file c.txt. -/
theorem generateDirectoryStructure_spec (repo : String) (files : List GitHubContent) :
    (∀ a b : GitHubContent, a.type = EntryType.dir → b.type = EntryType.file →
      entryLE a b = true) ∧
    (∀ a b : GitHubContent, a.type = b.type →
      entryLE a b = listCharLE a.path.data b.path.data) ∧
    (files.mergeSort entryLE).Pairwise (fun a b => entryLE a b = true) ∧
    (files.mergeSort entryLE).Perm files ∧
    (generateDirectoryStructure repo files =
      "Directory structure:\n└── " ++ shortName repo ++ "/\n" ++
        renderLines (files.mergeSort entryLE)) ∧
    (∀ fs f, renderLines (fs ++ [f]) = branchLines fs ++ lineFor true f) ∧
    (generateDirectoryStructure "o/r"
        [⟨"a", "a", .dir⟩, ⟨"b.txt", "a/b.txt", .file⟩, ⟨"c.txt", "c.txt", .file⟩] =
      "Directory structure:\n└── r/\n├── a/\n    ├── b.txt\n└── c.txt\n") := by
  refine ⟨?_, ?_, ?_, List.mergeSort_perm files entryLE, rfl,
    fun fs f => renderLines_append_last f fs, by decide⟩
  · intro a b ha hb
    simp [entryLE, ha, hb]
    rfl
  · intro a b h
    simp [entryLE, h]
  · exact List.sorted_mergeSort (fun a b c => entryLE_trans a b c)
      (fun a b => entryLE_total a b) files

theorem generateDirectoryStructure_spec_witness :
    ((⟨"a", "a", EntryType.dir⟩ : GitHubContent).type = EntryType.dir ∧
      (⟨"c.txt", "c.txt", EntryType.file⟩ : GitHubContent).type = EntryType.file) ∧
    entryLE ⟨"a", "a", EntryType.dir⟩ ⟨"c.txt", "c.txt", EntryType.file⟩ = true :=
  ⟨⟨rfl, rfl⟩, (generateDirectoryStructure_spec "o/r" []).1 _ _ rfl rfl⟩

/-- Response object of a completed upstream fetch of the generation endpoint:
the HTTP status and status text read by the handler. -/
structure UpResp where
  status : Nat
  statusText : String
  deriving DecidableEq, Repr

/-- Outcome of one fetch call of the generation endpoint: a response arrived,
or the call threw with a message. -/
inductive FetchOutcome where
  | resp (r : UpResp)
  | thrown (msg : String)
  deriving DecidableEq, Repr

/-- The ok flag of a fetch response: status in the 2xx range. -/
def respOk (r : UpResp) : Bool := 200 ≤ r.status && r.status < 300

/-- Result of the retry loop: a response obtained by break, or an error
propagated out of the loop; calls counts the fetch calls made and delays
lists the waits performed before retries, in order. -/
inductive RetryOutcome where
  | ok (r : UpResp) (calls : Nat) (delays : List Nat)
  | err (msg : String) (calls : Nat) (delays : List Nat)
  deriving DecidableEq, Repr

/-- Number of fetch calls recorded in a retry outcome. -/
def RetryOutcome.callCount : RetryOutcome → Nat
  | .ok _ c _ => c
  | .err _ c _ => c

/-- Embeds the retry loop of the generate-readme handler
(supabase/functions/generate-readme/index.ts lines 67-120).  fetchAt gives
the outcome of each fetch call, indexed by the number of calls already made;
attempts and calls are the loop counter and the call count, delays the
backoff waits performed so far.  A 429 response increments the counter and
retries after a wait of 2000 * attempts while attempts remain, and otherwise
falls through to the non-ok throw, whose catch increments the counter again
and rethrows; any other non-ok response or a thrown fetch is caught,
increments the counter, and either rethrows (when the incremented counter
reaches the maximum) or retries after a wait of 1000 * attempts; an ok
response breaks out of the loop with the response. -/
def retryLoop (fetchAt : Nat → FetchOutcome) (ma : Nat) (attempts calls : Nat)
    (delays : List Nat) : RetryOutcome :=
  if h : attempts < ma then
    match fetchAt calls with
    | .thrown msg =>
        if ma ≤ attempts + 1 then .err msg (calls + 1) delays
        else retryLoop fetchAt ma (attempts + 1) (calls + 1)
          (delays ++ [1000 * (attempts + 1)])
    | .resp r =>
        if r.status = 429 then
          if attempts + 1 < ma then
            retryLoop fetchAt ma (attempts + 1) (calls + 1)
              (delays ++ [2000 * (attempts + 1)])
          else
            if respOk r then .ok r (calls + 1) delays
            else
              let msg := "Gemini API error: " ++ toString r.status ++ " " ++ r.statusText
              if ma ≤ attempts + 2 then .err msg (calls + 1) delays
              else retryLoop fetchAt ma (attempts + 2) (calls + 1)
                (delays ++ [1000 * (attempts + 2)])
        else if respOk r then .ok r (calls + 1) delays
        else
          let msg := "Gemini API error: " ++ toString r.status ++ " " ++ r.statusText
          if ma ≤ attempts + 1 then .err msg (calls + 1) delays
          else retryLoop fetchAt ma (attempts + 1) (calls + 1)
            (delays ++ [1000 * (attempts + 1)])
  else .err "loop exited without a response" calls delays
termination_by ma - attempts
decreasing_by all_goals omega

/-- Tests whether pat occurs in s as a contiguous substring (models the
includes calls of the error mapping). -/
def strContains (s pat : String) : Bool := decide (0 < countSub pat.data s.data)

/-- Embeds the error mapping of the generate-readme handler (index.ts lines
135-147): a message mentioning 429 or Too Many Requests is replaced by the
dedicated rate-limit message, and the response status is 429 for messages
mentioning 429 and 500 otherwise. -/
def handleError (msg : String) : String × Nat :=
  let errorMessage :=
    if strContains msg "429" || strContains msg "Too Many Requests" then
      "Rate limit exceeded. Please wait a moment and try again."
    else msg
  (errorMessage, if strContains msg "429" then 429 else 500)

theorem retryLoop_calls_le (fetchAt : Nat → FetchOutcome) (ma attempts calls : Nat)
    (delays : List Nat) :
    (retryLoop fetchAt ma attempts calls delays).callCount ≤ calls + (ma - attempts) := by
  induction attempts, calls, delays using retryLoop.induct fetchAt ma with
  | case1 attempts calls delays h msg hf hstop =>
      rw [retryLoop, dif_pos h, hf]
      simp [hstop, RetryOutcome.callCount]
      omega
  | case2 attempts calls delays h msg hf hretry ih =>
      rw [retryLoop, dif_pos h, hf]
      simp [hretry]
      exact le_trans ih (by omega)
  | case3 attempts calls delays h r hf h429 hretry ih =>
      rw [retryLoop, dif_pos h, hf]
      simp [h429, hretry]
      exact le_trans ih (by omega)
  | case4 attempts calls delays h r hf h429 hretry hok =>
      rw [retryLoop, dif_pos h, hf]
      simp [h429, hretry, hok, RetryOutcome.callCount]
      omega
  | case5 attempts calls delays h r hf h429 hretry hok hstop =>
      rw [retryLoop, dif_pos h, hf]
      simp [h429, hretry, hok, hstop, RetryOutcome.callCount]
      omega
  | case6 attempts calls delays h r hf h429 hretry hok hstop ih =>
      rw [retryLoop, dif_pos h, hf]
      simp [h429, hretry, hok, hstop]
      exact le_trans ih (by omega)
  | case7 attempts calls delays h r hf h429 hok =>
      rw [retryLoop, dif_pos h, hf]
      simp [h429, hok, RetryOutcome.callCount]
      omega
  | case8 attempts calls delays h r hf h429 hok hstop =>
      rw [retryLoop, dif_pos h, hf]
      simp [h429, hok, hstop, RetryOutcome.callCount]
      omega
  | case9 attempts calls delays h r hf h429 hok hstop ih =>
      rw [retryLoop, dif_pos h, hf]
      simp [h429, hok, hstop]
      exact le_trans ih (by omega)
  | case10 attempts calls delays h =>
      rw [retryLoop, dif_neg h]
      simp [RetryOutcome.callCount]

/-- C9: with maxAttempts = 3 the handler makes at most 3 upstream fetch
attempts whatever the endpoint does; when every attempt is rate limited (429
Too Many Requests) it makes exactly 3 attempts with backoff waits of 2000 * 1
and 2000 * 2 before the second and third, exits the loop with the 429 error,
and the error mapping turns that message into the dedicated rate-limit text
with response status 429 instead of the generic 500 failure. -/
theorem retryLoop_rate_limit (fetchAt : Nat → FetchOutcome) :
    (retryLoop fetchAt 3 0 0 []).callCount ≤ 3 ∧
    ((∀ n, fetchAt n = .resp ⟨429, "Too Many Requests"⟩) →
      retryLoop fetchAt 3 0 0 [] =
        .err "Gemini API error: 429 Too Many Requests" 3 [2000 * 1, 2000 * 2] ∧
      handleError "Gemini API error: 429 Too Many Requests" =
        ("Rate limit exceeded. Please wait a moment and try again.", 429)) := by
  constructor
  · simpa using retryLoop_calls_le fetchAt 3 0 0 []
  · intro hf
    refine ⟨?_, by decide⟩
    rw [retryLoop, dif_pos (by norm_num : (0 : Nat) < 3), hf 0]
    norm_num [respOk]
    rw [retryLoop, dif_pos (by norm_num : (1 : Nat) < 3), hf 1]
    norm_num [respOk]
    rw [retryLoop, dif_pos (by norm_num : (2 : Nat) < 3), hf 2]
    norm_num [respOk]
    decide

theorem retryLoop_rate_limit_witness :
    ((fun _ : Nat => FetchOutcome.resp ⟨429, "Too Many Requests"⟩) 0 =
      FetchOutcome.resp ⟨429, "Too Many Requests"⟩) ∧
    retryLoop (fun _ : Nat => .resp ⟨429, "Too Many Requests"⟩) 3 0 0 [] =
      .err "Gemini API error: 429 Too Many Requests" 3 [2000 * 1, 2000 * 2] :=
  ⟨rfl, ((retryLoop_rate_limit (fun _ => .resp ⟨429, "Too Many Requests"⟩)).2
    (fun _ => rfl)).1⟩

/-- Models the sequencing of fetchDirectoryStructure (DirectoryStructure.tsx
lines 58-60): the call generateDirectoryStructure(allFiles) sorts the shared
allFiles array in place (Array.prototype.sort mutates its receiver and the
function sorts the argument array itself), so the following
calculateRepoMetadata(allFiles, token) call receives the array in sorted
order; the mutation is embedded by threading the sorted list explicitly.  The
pair holds the rendered structure text and the metadata. -/
def fetchDirectoryStructureFlow (atobFn : String → Option String)
    (respOf : String → FileResponse) (repoFullName : String)
    (allFiles : List GitHubContent) : String × RepoMetadata :=
  let structureText := generateDirectoryStructure repoFullName allFiles
  let allFilesAfterSort := allFiles.mergeSort entryLE
  (structureText, calculateRepoMetadata atobFn respOf repoFullName allFilesAfterSort)

/-- Example environment for C10: every entry is a file, the file at path a
decodes to 160 characters (40 estimated tokens) and every other file to one
character (2 estimated tokens); the traversal lists a last, while the sort
places it first. -/
def exResp : String → FileResponse := fun p =>
  if p = "a" then .okContent (String.mk (List.replicate 160 'a'))
  else .okContent "x"

/-- Eleven file entries in traversal order, the lexicographically smallest
path listed last. -/
def exFiles : List GitHubContent :=
  [⟨"b0", "b0", .file⟩, ⟨"b1", "b1", .file⟩, ⟨"b2", "b2", .file⟩,
   ⟨"b3", "b3", .file⟩, ⟨"b4", "b4", .file⟩, ⟨"b5", "b5", .file⟩,
   ⟨"b6", "b6", .file⟩, ⟨"b7", "b7", .file⟩, ⟨"b8", "b8", .file⟩,
   ⟨"b9", "b9", .file⟩, ⟨"a", "a", .file⟩]

set_option maxRecDepth 100000 in
unseal List.merge List.mergeSort in
/-- C10: in the fetchDirectoryStructure flow the metadata computation receives
the collection as sorted by generateDirectoryStructure, not in traversal
order, because the sort mutates the shared array in place; on the concrete
eleven-file input whose lexicographically first file is listed last by the
traversal, the flow samples the first ten files of the sorted order and
estimates 64 tokens, while the same computation over the traversal order
estimates 22 tokens. -/
theorem flow_metadata_uses_sorted_order (atobFn : String → Option String)
    (respOf : String → FileResponse) (repo : String) (files : List GitHubContent) :
    ((fetchDirectoryStructureFlow atobFn respOf repo files).2 =
      calculateRepoMetadata atobFn respOf repo (files.mergeSort entryLE)) ∧
    ((fetchDirectoryStructureFlow (fun s => some s) exResp "o/r" exFiles).2.estimatedTokens
        = 64 ∧
      (calculateRepoMetadata (fun s => some s) exResp "o/r" exFiles).estimatedTokens
        = 22) := by
  refine ⟨rfl, by decide, by decide⟩

end Gitbuddy
